import Mathlib

/-!
Verification development for the self-heal repository: a shallow embedding of
the simulated store chaos engine (`simulated-store/src/lib/chaos.ts`, the
chaos control API route) and of the agent core described by the specification
(Observer, Reasoner, Decider, Executor, Audit Ledger), together with theorems
settling the specification claims.
-/

namespace SelfHeal

/-! ## Chaos engine (embedded from simulated-store/src/lib/chaos.ts) -/

/-- The five global chaos flags, as in `interface ChaosState`. -/
structure ChaosState where
  checkout_fails : Bool
  api_errors : Bool
  webhook_drops : Bool
  migration_mode : Bool
  slow_mode : Bool
deriving DecidableEq, Repr

/-- The keys of `ChaosState` (`keyof ChaosState` in the source). -/
inductive ChaosMode
  | checkout_fails
  | api_errors
  | webhook_drops
  | migration_mode
  | slow_mode
deriving DecidableEq, Repr

/-- Field lookup `chaosState[mode]`. -/
def getFlag (st : ChaosState) : ChaosMode → Bool
  | .checkout_fails => st.checkout_fails
  | .api_errors => st.api_errors
  | .webhook_drops => st.webhook_drops
  | .migration_mode => st.migration_mode
  | .slow_mode => st.slow_mode

/-- Field update `chaosState[mode] = enabled`, as in `setChaosMode`. -/
def setChaosMode (st : ChaosState) (mode : ChaosMode) (enabled : Bool) : ChaosState :=
  match mode with
  | .checkout_fails => { st with checkout_fails := enabled }
  | .api_errors => { st with api_errors := enabled }
  | .webhook_drops => { st with webhook_drops := enabled }
  | .migration_mode => { st with migration_mode := enabled }
  | .slow_mode => { st with slow_mode := enabled }

/-- `FAILURE_RATES` table from chaos.ts (0.8, 0.5, 0.7, 1.0, 1.0). -/
def FAILURE_RATES : ChaosMode → ℚ
  | .checkout_fails => 8/10
  | .api_errors => 5/10
  | .webhook_drops => 7/10
  | .migration_mode => 1
  | .slow_mode => 1

/-- `disableAllChaos()`: replaces the whole state with all-false flags,
ignoring the previous state. -/
def disableAllChaos (_ : ChaosState) : ChaosState :=
  { checkout_fails := false
    api_errors := false
    webhook_drops := false
    migration_mode := false
    slow_mode := false }

/-- `shouldFail(mode)`: returns false at once when the flag is off, otherwise
compares a fresh random draw (`Math.random()`, passed here explicitly as
`draw`) against the mode failure rate. -/
def shouldFail (st : ChaosState) (mode : ChaosMode) (draw : ℚ) : Bool :=
  if !(getFlag st mode) then false
  else decide (draw < FAILURE_RATES mode)

/-- `AGENT_FIX_TOKEN` from chaos.ts. -/
def AGENT_FIX_TOKEN : String := "self-healing-agent-token"

/-- `validateAgentToken(token)`. -/
def validateAgentToken (token : String) : Bool :=
  token == AGENT_FIX_TOKEN

/-! ## Chaos control API (embedded from the `/api/chaos` route handler) -/

/-- The JSON response produced by the POST handler of the chaos control
route. `chaos_state` is `none` on the 400 error branch, which returns no
state; `fixed` is false where the source omits the field. -/
structure ChaosResponse where
  status : Nat
  success : Bool
  fixed : Bool
  message : String
  chaos_state : Option ChaosState
deriving DecidableEq, Repr

/-- Printable mode name, used only to build response messages. -/
def modeName : ChaosMode → String
  | .checkout_fails => "checkout_fails"
  | .api_errors => "api_errors"
  | .webhook_drops => "webhook_drops"
  | .migration_mode => "migration_mode"
  | .slow_mode => "slow_mode"

/-- The POST handler of the chaos control API. The body fields
`{ action, mode, token }` are passed explicitly; `isAgent` mirrors
`token === AGENT_FIX_TOKEN` and, exactly as in the source, is used only
inside the message string of the `disable` branch. Branches are tried in
source order: disable, enable, disable_all, toggle, then the 400 error. -/
def chaosPost (st : ChaosState) (action : String) (mode : Option ChaosMode)
    (token : Option String) : ChaosState × ChaosResponse :=
  let isAgent : Bool := decide (token = some AGENT_FIX_TOKEN)
  match action, mode with
  | "disable", some m =>
    let st2 := setChaosMode st m false
    (st2, { status := 200, success := true, fixed := true
            message := "Chaos mode " ++ modeName m ++ " disabled" ++
              (if isAgent then " by agent" else "")
            chaos_state := some st2 })
  | "enable", some m =>
    let st2 := setChaosMode st m true
    (st2, { status := 200, success := true, fixed := false
            message := "Chaos mode " ++ modeName m ++ " enabled"
            chaos_state := some st2 })
  | "disable_all", _ =>
    let st2 := disableAllChaos st
    (st2, { status := 200, success := true, fixed := true
            message := "All chaos modes disabled"
            chaos_state := some st2 })
  | "toggle", some m =>
    let st2 := setChaosMode st m (!(getFlag st m))
    (st2, { status := 200, success := true, fixed := false
            message := "Chaos mode " ++ modeName m ++ " toggled"
            chaos_state := some st2 })
  | _, _ =>
    (st, { status := 400, success := false, fixed := false
           message := "Invalid action. Use: enable, disable, toggle, disable_all"
           chaos_state := none })

/-! ## Data model of the agent core (spec sections 3 and 4) -/

/-- Severity and impact scale used by Signals and Issues. -/
inductive Impact
  | low
  | medium
  | high
  | critical
deriving DecidableEq, Repr

/-- Issue categories from the data model. -/
inductive Category
  | migration
  | platform_bug
  | documentation_gap
  | merchant_config
deriving DecidableEq, Repr

/-- A Signal record: one inbound failure event. `payload` is kept abstract
as a string; `processed` is the only mutable field. -/
structure Signal where
  id : Nat
  received_at : Nat
  source : String
  type : String
  severity : Impact
  merchant_id : String
  payload : String
  processed : Bool
deriving DecidableEq, Repr

/-- Modelled from the spec: the Signal Store is append-only and ingestion
is idempotent in the signal id — submitting an id already present leaves
the store unchanged (the concrete FastAPI ingestion code is not in the
repository snapshot). -/
def submitSignal (store : List Signal) (s : Signal) : List Signal :=
  if store.any (fun t => t.id == s.id) then store else store ++ [s]

/-! ## Observer (spec section 4.1) -/

/-- The grouping key `(source, type, merchant_id)`. -/
abbrev SigKey := String × String × String

/-- Key of a signal. -/
def sigKey (s : Signal) : SigKey := (s.source, s.type, s.merchant_id)

/-- All signals of a batch that carry a given key. -/
def groupOf (batch : List Signal) (k : SigKey) : List Signal :=
  batch.filter (fun s => decide (sigKey s = k))

/-- A pattern: the ids of a qualifying group of signals. Ephemeral, computed
fresh each cycle. -/
structure Pattern where
  signal_ids : List Nat
deriving DecidableEq, Repr

/-- Observer configuration: `pattern_threshold` (default 2). The batch given
to `runCycle` is already the windowed selection of at most
`max_signals_per_batch` unprocessed signals ordered by `received_at`. -/
structure ObserverConfig where
  pattern_threshold : Nat
deriving DecidableEq, Repr

/-- Modelled from the spec: one Observer cycle over a batch of unprocessed
signals (the concrete FastAPI Observer code is not in the repository
snapshot). Groups the batch by `(source, type, merchant_id)`, emits one
pattern per group of size at least `pattern_threshold`, and marks exactly
the signals of qualifying groups as processed; all other signals are left
untouched for the next cycle. Returns the patterns and the updated batch. -/
def runCycle (cfg : ObserverConfig) (batch : List Signal) :
    List Pattern × List Signal :=
  let ks := (batch.map sigKey).dedup
  let pats := ks.filterMap fun k =>
    let g := groupOf batch k
    if cfg.pattern_threshold ≤ g.length then some ⟨g.map Signal.id⟩ else none
  let upd := batch.map fun s =>
    if cfg.pattern_threshold ≤ (groupOf batch (sigKey s)).length then
      { s with processed := true }
    else s
  (pats, upd)

/-! ## Issue drafts and the Decider (spec sections 4.2 and 4.3) -/

/-- One link of a reasoning chain. -/
structure ReasoningStep where
  observation : String
  inference : String
  confidence : ℚ
deriving DecidableEq, Repr

/-- The Reasoner output consumed by the Decider. -/
structure IssueDraft where
  category : Category
  confidence : ℚ
  root_cause : String
  reasoning_chain : List ReasoningStep
  estimated_impact : Impact
deriving DecidableEq, Repr

/-- Decider configuration: `auto_approve_threshold` (default 0.9) and
`medium_risk_approval_count`. -/
structure DeciderConfig where
  auto_approve_threshold : ℚ
  medium_risk_approval_count : Nat
deriving DecidableEq, Repr

/-- The approval decision derived from the rule table. -/
structure Decision where
  requires_approval : Bool
  auto_start : Bool
  approver_count : Nat
  escalated : Bool
deriving DecidableEq, Repr

/-- Modelled from the spec: the Decider rule table of section 4.3, rows
evaluated in order with first match winning (the concrete FastAPI Decider
code is not in the repository snapshot). -/
def decide (cfg : DeciderConfig) (d : IssueDraft) : Decision :=
  if cfg.auto_approve_threshold ≤ d.confidence then
    if d.estimated_impact = Impact.low ∨ d.estimated_impact = Impact.medium then
      { requires_approval := false, auto_start := true
        approver_count := 0, escalated := false }
    else
      { requires_approval := true, auto_start := false
        approver_count := 1, escalated := false }
  else if (5 : ℚ)/10 ≤ d.confidence then
    { requires_approval := true, auto_start := false
      approver_count := cfg.medium_risk_approval_count, escalated := false }
  else
    { requires_approval := true, auto_start := false
      approver_count := cfg.medium_risk_approval_count, escalated := true }

/-! ## Workflow state machine (spec section 4.4) -/

/-- Workflow statuses. -/
inductive WfStatus
  | draft
  | pending_approval
  | approved
  | running
  | paused
  | completed
  | failed
  | rejected
  | rolled_back
deriving DecidableEq, Repr

/-- Modelled from the spec: initial status of a materialized workflow —
`pending_approval` when approval is required, `approved` on the
auto-approve path. -/
def initialStatus (dec : Decision) : WfStatus :=
  if dec.requires_approval then .pending_approval else .approved

/-- Transition-requesting events on a workflow. -/
inductive WfEvent
  | submit_for_approval
  | auto_approve
  | approve
  | reject
  | claim
  | pause
  | resume
  | complete
  | fail
  | rollback
deriving DecidableEq, Repr

/-- Modelled from the spec: the single authoritative transition table of
section 4.4. `none` means the request is invalid from the current state
(`ApprovalConflict` for the approval-family events). -/
def wfTransition : WfStatus → WfEvent → Option WfStatus
  | .draft, .submit_for_approval => some .pending_approval
  | .draft, .auto_approve => some .approved
  | .pending_approval, .approve => some .approved
  | .pending_approval, .reject => some .rejected
  | .approved, .claim => some .running
  | .running, .pause => some .paused
  | .paused, .resume => some .running
  | .running, .complete => some .completed
  | .running, .fail => some .failed
  | .failed, .rollback => some .rolled_back
  | _, _ => none

/-! ## Audit Ledger and audited workflow transitions (spec sections 3, 4.5) -/

/-- An audit log entry (fields the claims are about). -/
structure AuditLogEntry where
  id : Nat
  event_type : String
  actor : String
  description : String
  issue_id : Option Nat
  workflow_id : Option Nat
  success : Bool
deriving DecidableEq, Repr

/-- The append-only Audit Ledger. -/
structure Ledger where
  entries : List AuditLogEntry
deriving DecidableEq, Repr

/-- `append`: the only write operation of the ledger. -/
def ledgerAppend (led : Ledger) (e : AuditLogEntry) : Ledger :=
  ⟨led.entries ++ [e]⟩

/-- A workflow record as seen by the transition subsystem: id, owning issue
id, current status. -/
structure WfRecord where
  wf_id : Nat
  issue_id : Nat
  status : WfStatus
deriving DecidableEq, Repr

/-- The state shared by the transition subsystem: the workflow records and
the audit ledger. -/
structure SystemState where
  workflows : List WfRecord
  audit : Ledger
deriving DecidableEq, Repr

/-- Printable event name, used to build audit entries. -/
def eventName : WfEvent → String
  | .submit_for_approval => "workflow_submitted"
  | .auto_approve => "workflow_auto_approved"
  | .approve => "workflow_approved"
  | .reject => "workflow_rejected"
  | .claim => "workflow_claimed"
  | .pause => "workflow_paused"
  | .resume => "workflow_resumed"
  | .complete => "workflow_completed"
  | .fail => "workflow_failed"
  | .rollback => "workflow_rolled_back"

/-- The audit entry recording one workflow status transition; its
`issue_id` and `workflow_id` are those of the transitioned record. -/
def entryFor (n : Nat) (w : WfRecord) (ev : WfEvent) (actor : String) :
    AuditLogEntry :=
  { id := n, event_type := eventName ev, actor := actor
    description := eventName ev
    issue_id := some w.issue_id, workflow_id := some w.wf_id
    success := true }

/-- Modelled from the spec: a transition request on workflow `wid`
(sections 4.4 and 4.5; the concrete FastAPI transition code is not in the
repository snapshot). The request is validated against the transition
table; an invalid request returns `false` to the caller and leaves the
whole state — workflows and ledger alike — untouched. A valid request
updates the workflow status and appends exactly one audit entry with the
matching ids, atomically with the transition. -/
def requestTransition (st : SystemState) (wid : Nat) (ev : WfEvent)
    (actor : String) : SystemState × Bool :=
  match st.workflows.find? (fun w => w.wf_id == wid) with
  | none => (st, false)
  | some w =>
    match wfTransition w.status ev with
    | none => (st, false)
    | some nxt =>
      ({ workflows := st.workflows.map fun v =>
           if v.wf_id == wid then { v with status := nxt } else v
         audit := ledgerAppend st.audit
           (entryFor st.audit.entries.length w ev actor) }, true)

/-- Status of workflow `wid` in a state, when present. -/
def statusOf (st : SystemState) (wid : Nat) : Option WfStatus :=
  (st.workflows.find? (fun w => w.wf_id == wid)).map WfRecord.status

/-! ## Executor (spec section 4.4, step execution) -/

/-- Step statuses. -/
inductive StepStatus
  | pending
  | running
  | completed
  | failed
  | skipped
deriving DecidableEq, Repr

/-- A workflow step. -/
structure Step where
  id : Nat
  name : String
  action_type : String
  risk_level : Impact
  status : StepStatus
deriving DecidableEq, Repr

/-- A workflow as driven by the Executor: status plus ordered steps. -/
structure Workflow where
  wf_id : Nat
  issue_id : Nat
  status : WfStatus
  steps : List Step
deriving DecidableEq, Repr

/-- Whether a step action succeeds within the retry budget: the action is
attempted up to `retries` times (default 3) and the step succeeds when some
attempt succeeds. `oracle sid a` is the outcome of attempt `a` of the
action of step `sid` against the target system. -/
def stepSucceeds (oracle : Nat → Nat → Bool) (retries : Nat) (sid : Nat) :
    Bool :=
  (List.range retries).any fun a => oracle sid a

/-- Modelled from the spec: the Executor step loop (section 4.4; the
concrete FastAPI Executor code is not in the repository snapshot). Steps
are taken in list order; a step that succeeds within its retry budget is
marked `completed` and the next step starts; a step that exhausts its
retries is marked `failed` and the loop stops, leaving every later step
untouched. Returns the updated steps, the ids of the steps that started
(in starting order), and whether all steps completed. -/
def runSteps (oracle : Nat → Nat → Bool) (retries : Nat) :
    List Step → List Step × List Nat × Bool
  | [] => ([], [], true)
  | s :: rest =>
    if stepSucceeds oracle retries s.id then
      let r := runSteps oracle retries rest
      ({ s with status := .completed } :: r.1, s.id :: r.2.1, r.2.2)
    else
      ({ s with status := .failed } :: rest, [s.id], false)

/-- Modelled from the spec: the Executor claims an `approved` workflow and
runs its steps; the workflow ends `completed` when every step completed and
`failed` when some step exhausted its retries. A workflow in any other
status is left untouched and no step starts. -/
def executeWorkflow (oracle : Nat → Nat → Bool) (retries : Nat)
    (wf : Workflow) : Workflow × List Nat :=
  if wf.status = WfStatus.approved then
    let r := runSteps oracle retries wf.steps
    ({ wf with steps := r.1
               status := if r.2.2 then .completed else .failed }, r.2.1)
  else (wf, [])

/-! ## Reasoner (spec section 4.2) -/

/-- Outcome of the AI-backed strategy call: a parsed draft, or one of the
failure shapes the spec names (error, timeout, unparseable response). -/
inductive AIResult
  | ok (d : IssueDraft)
  | failed
  | timeout
  | unparseable
deriving DecidableEq, Repr

/-- Modelled from the spec: the rule-based fallback strategy, keyed on
`signal.type`, producing a conservative lower-confidence draft (the
concrete FastAPI Reasoner code is not in the repository snapshot). -/
def ruleFallback (signals : List Signal) : IssueDraft :=
  let t := ((signals.head?).map Signal.type).getD ""
  let cat :=
    if t = "checkout_event" then Category.platform_bug
    else if t = "api_error" then Category.platform_bug
    else if t = "webhook_failure" then Category.platform_bug
    else if t = "ticket" then Category.documentation_gap
    else Category.merchant_config
  { category := cat, confidence := 5/10
    root_cause := "rule-based fallback from signal type"
    reasoning_chain := [], estimated_impact := .low }

/-- The audit entry recording a reasoning degradation (fallback taken). -/
def degradationEntry (n : Nat) : AuditLogEntry :=
  { id := n, event_type := "reasoning_degraded", actor := "agent"
    description := "AI strategy unavailable, rule-based fallback used"
    issue_id := none, workflow_id := none, success := false }

/-- Modelled from the spec: `analyze` fails closed (section 4.2; the
concrete FastAPI Reasoner code is not in the repository snapshot). The AI
strategy outcome is passed explicitly; on any non-ok outcome the rule-based
fallback draft is returned and the degradation is recorded in the ledger.
The function is total: it always returns an `IssueDraft` and never throws
out of the agent loop. -/
def analyze (ai : AIResult) (signals : List Signal) (led : Ledger) :
    IssueDraft × Ledger :=
  match ai with
  | .ok d => (d, led)
  | _ => (ruleFallback signals, ledgerAppend led (degradationEntry led.entries.length))

/-! ## Audited transitions over the full entity set (spec sections 3, 4.5)

`requestTransition` above audits the workflow status machine alone; the
following subsystem is the audited view of every status transition the
spec names — on Issues, on Workflows and on Steps alike. The Executor's
`runSteps` is the ledger-free ordering projection of the step loop; the
audited view of each step status change it performs is the `step` case of
`applyReq` below. -/

/-- Issue statuses from the data model. -/
inductive IssueStatus
  | detected
  | analyzing
  | pending_action
  | in_progress
  | resolved
  | escalated
deriving DecidableEq, Repr

/-- Position of an issue status in the monotone order of section 3. -/
def issueRank : IssueStatus → Nat
  | .detected => 0
  | .analyzing => 1
  | .pending_action => 2
  | .in_progress => 3
  | .resolved => 4
  | .escalated => 5

/-- Modelled from the spec: Issue status advances monotonically, except
`escalated`, which is reachable from any state and terminal (the concrete
FastAPI issue code is not in the repository snapshot). -/
def issueTransitionOk (cur nxt : IssueStatus) : Bool :=
  if cur = IssueStatus.escalated then false
  else if nxt = IssueStatus.escalated then true
  else Decidable.decide (issueRank cur < issueRank nxt)

/-- Modelled from the spec: the Step status changes the Executor performs —
a step starts (`pending → running`), is explicitly skipped
(`pending → skipped`), and ends `completed` or `failed` from `running`. -/
def stepTransitionOk : StepStatus → StepStatus → Bool
  | .pending, .running => true
  | .pending, .skipped => true
  | .running, .completed => true
  | .running, .failed => true
  | _, _ => false

/-- An issue record as seen by the audited subsystem. -/
structure IssueRec where
  issue_id : Nat
  status : IssueStatus
deriving DecidableEq, Repr

/-- A step registered under a workflow in the audited subsystem. -/
structure StepRec where
  step_id : Nat
  status : StepStatus
deriving DecidableEq, Repr

/-- A workflow with its steps as seen by the audited subsystem. -/
structure WfFull where
  wf_id : Nat
  issue_id : Nat
  status : WfStatus
  steps : List StepRec
deriving DecidableEq, Repr

/-- The full agent state: issues, workflows with their steps, and the
audit ledger. -/
structure AgentState where
  issues : List IssueRec
  workflows : List WfFull
  audit : Ledger
deriving DecidableEq, Repr

/-- A status transition request on any of the three entity kinds. -/
inductive TransitionReq
  | issue (iid : Nat) (nxt : IssueStatus)
  | workflow (wid : Nat) (ev : WfEvent)
  | step (wid : Nat) (sid : Nat) (nxt : StepStatus)
deriving DecidableEq, Repr

/-- The audit entry recording an Issue status transition; its `issue_id` is
the transitioned issue's id. -/
def issueAuditEntry (n iid : Nat) (actor : String) : AuditLogEntry :=
  { id := n, event_type := "issue_status_changed", actor := actor
    description := "issue_status_changed"
    issue_id := some iid, workflow_id := none, success := true }

/-- The audit entry recording a Workflow status transition; its ids are the
transitioned workflow's id and owning issue id. -/
def wfAuditEntry (n wid iid : Nat) (ev : WfEvent) (actor : String) :
    AuditLogEntry :=
  { id := n, event_type := eventName ev, actor := actor
    description := eventName ev
    issue_id := some iid, workflow_id := some wid, success := true }

/-- The audit entry recording a Step status transition; its ids are those
of the workflow owning the step. -/
def stepAuditEntry (n wid iid : Nat) (actor : String) : AuditLogEntry :=
  { id := n, event_type := "step_status_changed", actor := actor
    description := "step_status_changed"
    issue_id := some iid, workflow_id := some wid, success := true }

/-- Modelled from the spec: one validated, audited status transition on an
Issue, Workflow, or Step (sections 3, 4.4 and 4.5; the concrete FastAPI
code is not in the repository snapshot). An invalid request — unknown
entity or transition not allowed by the entity's state machine — returns
`false` and leaves the whole state untouched; a valid request updates the
one targeted entity's status and appends exactly one audit entry carrying
that entity's ids, atomically with the transition. -/
def applyReq (st : AgentState) (req : TransitionReq) (actor : String) :
    AgentState × Bool :=
  match req with
  | .issue iid nxt =>
    match st.issues.find? (fun i => i.issue_id == iid) with
    | none => (st, false)
    | some i =>
      if issueTransitionOk i.status nxt then
        ({ st with
            issues := st.issues.map fun j =>
              if j.issue_id == iid then { j with status := nxt } else j
            audit := ledgerAppend st.audit
              (issueAuditEntry st.audit.entries.length iid actor) }, true)
      else (st, false)
  | .workflow wid ev =>
    match st.workflows.find? (fun w => w.wf_id == wid) with
    | none => (st, false)
    | some w =>
      match wfTransition w.status ev with
      | none => (st, false)
      | some nxt =>
        ({ st with
            workflows := st.workflows.map fun v =>
              if v.wf_id == wid then { v with status := nxt } else v
            audit := ledgerAppend st.audit
              (wfAuditEntry st.audit.entries.length wid w.issue_id ev
                actor) }, true)
  | .step wid sid nxt =>
    match st.workflows.find? (fun w => w.wf_id == wid) with
    | none => (st, false)
    | some w =>
      match w.steps.find? (fun t => t.step_id == sid) with
      | none => (st, false)
      | some srec =>
        if stepTransitionOk srec.status nxt then
          ({ st with
              workflows := st.workflows.map fun v =>
                if v.wf_id == wid then
                  { v with steps := v.steps.map fun t =>
                      if t.step_id == sid then { t with status := nxt }
                      else t }
                else v
              audit := ledgerAppend st.audit
                (stepAuditEntry st.audit.entries.length wid w.issue_id
                  actor) }, true)
        else (st, false)

/-- A sequence of transition requests, applied left to right. -/
def runReqs (st : AgentState) : List (TransitionReq × String) → AgentState
  | [] => st
  | (req, actor) :: rest => runReqs (applyReq st req actor).1 rest

/-- Number of requests of a sequence that are valid transitions, i.e. that
are actually performed. -/
def appliedReqCount (st : AgentState) :
    List (TransitionReq × String) → Nat
  | [] => 0
  | (req, actor) :: rest =>
    (if (applyReq st req actor).2 then 1 else 0) +
      appliedReqCount (applyReq st req actor).1 rest

/-- The entry's `issue_id`/`workflow_id` match the transitioned entity: for
an Issue its own id; for a Workflow or a Step the workflow id and the
owning issue id. -/
def entryMatches (st : AgentState) (req : TransitionReq)
    (e : AuditLogEntry) : Prop :=
  match req with
  | .issue iid _ => e.issue_id = some iid ∧ e.workflow_id = none
  | .workflow wid _ =>
    e.workflow_id = some wid ∧
    ∀ w, st.workflows.find? (fun v => v.wf_id == wid) = some w →
      e.issue_id = some w.issue_id
  | .step wid _ _ =>
    e.workflow_id = some wid ∧
    ∀ w, st.workflows.find? (fun v => v.wf_id == wid) = some w →
      e.issue_id = some w.issue_id

/-! ## Concrete demonstration inputs -/

/-- Decider configuration with the default 0.9 auto-approve threshold. -/
def demoCfg : DeciderConfig := ⟨9/10, 2⟩

/-- An issue draft with confidence 0.95 and low impact. -/
def demoDraftHigh : IssueDraft :=
  ⟨Category.platform_bug, 19/20, "payment gateway timeout", [], Impact.low⟩

/-- An issue draft with confidence 0.4 and critical impact. -/
def demoDraftLow : IssueDraft :=
  ⟨Category.merchant_config, 4/10, "unknown root cause", [], Impact.critical⟩

/-- A system state holding one workflow awaiting approval. -/
def demoSys : SystemState :=
  ⟨[⟨1, 7, WfStatus.pending_approval⟩], ⟨[]⟩⟩

/-- A full agent state with one detected issue and one approved one-step
workflow. -/
def demoAgent : AgentState :=
  ⟨[⟨7, IssueStatus.detected⟩],
   [⟨1, 7, WfStatus.approved, [⟨1, StepStatus.pending⟩]⟩],
   ⟨[]⟩⟩

/-- A step outcome oracle under which the action of step 2 fails on every
attempt and every other action succeeds at once. -/
def demoOracle : Nat → Nat → Bool := fun sid _ => sid != 2

/-- An approved three-step workflow. -/
def demoWf : Workflow :=
  ⟨1, 7, WfStatus.approved,
    [⟨1, "diagnose", "diagnose", Impact.low, StepStatus.pending⟩,
     ⟨2, "apply fix", "apply_endpoint_fix", Impact.medium, StepStatus.pending⟩,
     ⟨3, "validate", "validate", Impact.low, StepStatus.pending⟩]⟩

/-- Observer configuration with the default pattern threshold 2. -/
def obsCfg : ObserverConfig := ⟨2⟩

/-- A batch with two checkout signals sharing a key and one lone api
signal. -/
def demoBatch : List Signal :=
  [⟨1, 10, "simulated_store", "checkout_event", Impact.critical,
      "demo_store_001", "p1", false⟩,
   ⟨2, 11, "simulated_store", "checkout_event", Impact.critical,
      "demo_store_001", "p2", false⟩,
   ⟨3, 12, "simulated_store", "api_error", Impact.high,
      "demo_store_001", "p3", false⟩]

/-- The key shared by the two checkout signals of `demoBatch`. -/
def demoKey : SigKey := ("simulated_store", "checkout_event", "demo_store_001")

/-! ## Statements of the claimed properties -/

/-- The Observer cycle contract on a batch and a qualifying key `k`:
exactly one emitted pattern carries the ids of the `k` group; every signal
of the group comes out processed; no signal id occurs in two patterns; and
every signal of a non-qualifying group comes out unprocessed. -/
def ObserverSpec (cfg : ObserverConfig) (batch : List Signal) (k : SigKey) :
    Prop :=
  ((runCycle cfg batch).1.countP
      (fun p => Decidable.decide
        (p.signal_ids = (groupOf batch k).map Signal.id)) = 1) ∧
  (∀ s ∈ (runCycle cfg batch).2, sigKey s = k → s.processed = true) ∧
  (∀ i : Nat, (runCycle cfg batch).1.countP
      (fun p => Decidable.decide (i ∈ p.signal_ids)) ≤ 1) ∧
  (∀ s ∈ (runCycle cfg batch).2,
      (groupOf batch (sigKey s)).length < cfg.pattern_threshold →
      s.processed = false)

/-- The Executor ordering contract: started step ids are strictly
increasing; every step before a started step ends `completed`; and a step
that exhausts its retries fails the workflow while no later step ever
starts. -/
def ExecutorSpec (o : Nat → Nat → Bool) (r : Nat) (wf : Workflow) : Prop :=
  (executeWorkflow o r wf).2.Pairwise (· < ·) ∧
  (∀ tid ∈ (executeWorkflow o r wf).2, ∀ u ∈ (executeWorkflow o r wf).1.steps,
      u.id < tid → u.status = StepStatus.completed) ∧
  (∀ s ∈ wf.steps, stepSucceeds o r s.id = false →
    (executeWorkflow o r wf).1.status = WfStatus.failed ∧
    ∀ t ∈ wf.steps, s.id < t.id → t.id ∉ (executeWorkflow o r wf).2)

/-- The reject-then-approve contract: rejecting workflow `wid` succeeds and
lands it in `rejected`; the subsequent approve request is refused with the
state, ledger included, untouched; and `rejected` is terminal under every
event. -/
def RejectApproveSpec (st : SystemState) (wid : Nat) (a1 a2 : String) :
    Prop :=
  (requestTransition st wid WfEvent.reject a1).2 = true ∧
  statusOf (requestTransition st wid WfEvent.reject a1).1 wid =
    some WfStatus.rejected ∧
  (requestTransition (requestTransition st wid WfEvent.reject a1).1 wid
      WfEvent.approve a2).2 = false ∧
  (requestTransition (requestTransition st wid WfEvent.reject a1).1 wid
      WfEvent.approve a2).1 = (requestTransition st wid WfEvent.reject a1).1 ∧
  (∀ ev, wfTransition WfStatus.rejected ev = none)

/-- The audited-transition contract of the full agent state, for one
request on any of the three entity kinds: a performed transition appends
exactly one entry, whose ids match the transitioned entity; a refused
request changes nothing at all; and over any request sequence the ledger
grows by exactly the number of performed transitions. -/
def FullAuditSpec (st : AgentState) (req : TransitionReq) (actor : String) :
    Prop :=
  ((applyReq st req actor).2 = true →
    ∃ e : AuditLogEntry,
      (applyReq st req actor).1.audit.entries = st.audit.entries ++ [e] ∧
      entryMatches st req e) ∧
  ((applyReq st req actor).2 = false → (applyReq st req actor).1 = st) ∧
  (∀ reqs : List (TransitionReq × String),
    (runReqs st reqs).audit.entries.length =
      st.audit.entries.length + appliedReqCount st reqs)

/-! ## Theorems -/

/-- C9: after `disableAllChaos()` every mode is off and `shouldFail` returns
false for every mode and every random draw, whatever the prior state; more
generally `shouldFail` of any mode whose flag is false is false. -/
theorem disableAll_shouldFail_false (st : ChaosState) (mode : ChaosMode)
    (draw : ℚ) :
    shouldFail (disableAllChaos st) mode draw = false ∧
    (getFlag st mode = false → shouldFail st mode draw = false) := by
  constructor
  · cases mode <;> simp [shouldFail, disableAllChaos, getFlag]
  · intro h
    simp [shouldFail, h]

/-- C9 witness: the theorem applied to the all-on state and to a state whose
checkout flag is off. -/
theorem disableAll_shouldFail_false_witness :
    shouldFail (disableAllChaos ⟨true, true, true, true, true⟩)
      ChaosMode.migration_mode (1/10) = false ∧
    getFlag ⟨false, true, true, true, true⟩ ChaosMode.checkout_fails = false ∧
    shouldFail ⟨false, true, true, true, true⟩ ChaosMode.checkout_fails (1/10)
      = false :=
  ⟨(disableAll_shouldFail_false ⟨true, true, true, true, true⟩
      ChaosMode.migration_mode (1/10)).1,
   by decide,
   (disableAll_shouldFail_false ⟨false, true, true, true, true⟩
      ChaosMode.checkout_fails (1/10)).2 (by decide)⟩

/-- C10: the chaos-fix POST is token independent — for `disable` (and
`disable_all`) two requests differing only in the token produce the same
new chaos state with the targeted flag(s) off, both respond success, and
every response field other than the message text coincides; for
`disable_all` even the messages coincide. -/
theorem chaosFix_token_independent (st : ChaosState) (m : ChaosMode)
    (t1 t2 : Option String) :
    (chaosPost st "disable" (some m) t1).1 =
      (chaosPost st "disable" (some m) t2).1 ∧
    getFlag (chaosPost st "disable" (some m) t1).1 m = false ∧
    (chaosPost st "disable" (some m) t1).2.success = true ∧
    (chaosPost st "disable" (some m) t2).2.success = true ∧
    (chaosPost st "disable" (some m) t1).2.status =
      (chaosPost st "disable" (some m) t2).2.status ∧
    (chaosPost st "disable" (some m) t1).2.fixed =
      (chaosPost st "disable" (some m) t2).2.fixed ∧
    (chaosPost st "disable" (some m) t1).2.chaos_state =
      (chaosPost st "disable" (some m) t2).2.chaos_state ∧
    (chaosPost st "disable_all" none t1).1 =
      (chaosPost st "disable_all" none t2).1 ∧
    (∀ mo, getFlag (chaosPost st "disable_all" none t1).1 mo = false) ∧
    (chaosPost st "disable_all" none t1).2.success = true ∧
    (chaosPost st "disable_all" none t2).2.success = true ∧
    (chaosPost st "disable_all" none t1).2 =
      (chaosPost st "disable_all" none t2).2 := by
  refine ⟨rfl, ?_, rfl, rfl, rfl, rfl, rfl, rfl, ?_, rfl, rfl, rfl⟩
  · cases m <;> rfl
  · intro mo
    cases mo <;> rfl

/-- C7: signal ingestion is idempotent in the id — submitting the same
signal twice yields the same store as submitting it once, hence also the
same Observer patterns. -/
theorem submitSignal_idempotent (cfg : ObserverConfig) (store : List Signal)
    (s : Signal) :
    submitSignal (submitSignal store s) s = submitSignal store s ∧
    runCycle cfg (submitSignal (submitSignal store s) s) =
      runCycle cfg (submitSignal store s) := by
  have h : submitSignal (submitSignal store s) s = submitSignal store s := by
    by_cases hmem : store.any (fun t => t.id == s.id) = true
    · simp [submitSignal, hmem]
    · simp [submitSignal, hmem]
  exact ⟨h, by rw [h]⟩

/-- C3: with the default 0.9 auto-approve threshold, a draft of confidence
at least 0.9 and low impact needs no approval and its workflow starts
`approved`, not `pending_approval`. -/
theorem decider_auto_approves (cfg : DeciderConfig) (d : IssueDraft)
    (hth : cfg.auto_approve_threshold = 9/10)
    (hc : (9 : ℚ)/10 ≤ d.confidence)
    (hi : d.estimated_impact = Impact.low) :
    (decide cfg d).requires_approval = false ∧
    initialStatus (decide cfg d) = WfStatus.approved ∧
    initialStatus (decide cfg d) ≠ WfStatus.pending_approval := by
  have h1 : cfg.auto_approve_threshold ≤ d.confidence := by
    rw [hth]; exact hc
  refine ⟨?_, ?_, ?_⟩ <;> simp [decide, initialStatus, h1, hi]

/-- C3 witness: the theorem applied to the default configuration and the
confidence-0.95, low-impact draft. -/
theorem decider_auto_approves_witness :
    (decide demoCfg demoDraftHigh).requires_approval = false ∧
    initialStatus (decide demoCfg demoDraftHigh) = WfStatus.approved ∧
    initialStatus (decide demoCfg demoDraftHigh) ≠ WfStatus.pending_approval :=
  decider_auto_approves demoCfg demoDraftHigh rfl (by norm_num [demoDraftHigh])
    rfl

/-- C4: with the default 0.9 auto-approve threshold, a draft of confidence
below 0.5 is escalated and requires approval, whatever its impact. -/
theorem decider_escalates (cfg : DeciderConfig) (d : IssueDraft)
    (hth : cfg.auto_approve_threshold = 9/10)
    (hc : d.confidence < (5 : ℚ)/10) :
    (decide cfg d).escalated = true ∧
    (decide cfg d).requires_approval = true ∧
    initialStatus (decide cfg d) = WfStatus.pending_approval := by
  have h1 : ¬ cfg.auto_approve_threshold ≤ d.confidence := by
    rw [hth]; intro hle; linarith
  have h2 : ¬ (5 : ℚ)/10 ≤ d.confidence := by linarith
  refine ⟨?_, ?_, ?_⟩ <;> simp [decide, initialStatus, h1, h2]

/-- C4 witness: the theorem applied to the default configuration and the
confidence-0.4, critical-impact draft. -/
theorem decider_escalates_witness :
    (decide demoCfg demoDraftLow).escalated = true ∧
    (decide demoCfg demoDraftLow).requires_approval = true ∧
    initialStatus (decide demoCfg demoDraftLow) = WfStatus.pending_approval :=
  decider_escalates demoCfg demoDraftLow rfl (by norm_num [demoDraftLow])

/-- C8: on any AI strategy failure (error, timeout, unparseable response)
`analyze` still returns the rule-based fallback draft and appends the
degradation entry, flagged unsuccessful, to the ledger; `analyze` is a
total function, so no exception escapes the agent loop. -/
theorem analyze_fails_closed (ai : AIResult) (signals : List Signal)
    (led : Ledger)
    (h : ai = AIResult.failed ∨ ai = AIResult.timeout ∨
      ai = AIResult.unparseable) :
    (analyze ai signals led).1 = ruleFallback signals ∧
    (analyze ai signals led).2.entries =
      led.entries ++ [degradationEntry led.entries.length] ∧
    (degradationEntry led.entries.length).success = false := by
  rcases h with rfl | rfl | rfl <;> exact ⟨rfl, rfl, rfl⟩

/-- C8 witness: the theorem applied to a timeout of the AI strategy on the
demonstration batch and the empty ledger. -/
theorem analyze_fails_closed_witness :
    (analyze AIResult.timeout demoBatch ⟨[]⟩).1 = ruleFallback demoBatch ∧
    (analyze AIResult.timeout demoBatch ⟨[]⟩).2.entries =
      Ledger.entries ⟨[]⟩ ++ [degradationEntry (Ledger.entries ⟨[]⟩).length] ∧
    (degradationEntry (Ledger.entries ⟨[]⟩).length).success = false :=
  analyze_fails_closed AIResult.timeout demoBatch ⟨[]⟩ (Or.inr (Or.inl rfl))

/-- C5: rejecting a workflow in `pending_approval` lands it in the terminal
`rejected` state; the subsequent approve request is refused as an invalid
transition with the whole state untouched, and no event leaves
`rejected`. -/
theorem reject_then_approve (st : SystemState) (wid : Nat) (a1 a2 : String)
    (w : WfRecord)
    (hw : st.workflows.find? (fun v => v.wf_id == wid) = some w)
    (hst : w.status = WfStatus.pending_approval) :
    RejectApproveSpec st wid a1 a2 := by
  have hww : (w.wf_id == wid) = true := by
    have h2 := List.find?_some hw
    simpa using h2
  have hreq : requestTransition st wid WfEvent.reject a1 =
      ({ workflows := st.workflows.map fun v =>
           if v.wf_id == wid then { v with status := WfStatus.rejected } else v
         audit := ledgerAppend st.audit
           (entryFor st.audit.entries.length w WfEvent.reject a1) }, true) := by
    simp only [requestTransition, hw, hst, wfTransition]
  have hcomp : ((fun v : WfRecord => v.wf_id == wid) ∘ fun v : WfRecord =>
      if v.wf_id == wid then { v with status := WfStatus.rejected } else v) =
      (fun v : WfRecord => v.wf_id == wid) := by
    funext v
    by_cases h : (v.wf_id == wid) = true
    · simp [Function.comp, h]
    · simp [Function.comp, h]
  have hfindmap : ((st.workflows.map fun v =>
      if v.wf_id == wid then { v with status := WfStatus.rejected } else v).find?
        (fun v => v.wf_id == wid)) =
      some { w with status := WfStatus.rejected } := by
    rw [List.find?_map, hcomp, hw]
    simp [Option.map, hww]
  have hsnd : (requestTransition st wid WfEvent.reject a1).2 = true := by
    rw [hreq]
  unfold RejectApproveSpec
  set st1 := (requestTransition st wid WfEvent.reject a1).1 with hst1
  have hfind2 : st1.workflows.find? (fun v => v.wf_id == wid) =
      some { w with status := WfStatus.rejected } := by
    rw [hst1, hreq]
    exact hfindmap
  have hwt : wfTransition WfStatus.rejected WfEvent.approve = none := rfl
  have hreq2 : requestTransition st1 wid WfEvent.approve a2 = (st1, false) := by
    simp [requestTransition, hfind2, hwt]
  refine ⟨hsnd, ?_, ?_, ?_, ?_⟩
  · unfold statusOf
    rw [hfind2]
    rfl
  · rw [hreq2]
  · rw [hreq2]
  · intro ev
    cases ev <;> rfl

/-- C5 witness: the theorem applied to the demonstration state whose
workflow 1 awaits approval. -/
theorem reject_then_approve_witness :
    RejectApproveSpec demoSys 1 "human" "human" :=
  reject_then_approve demoSys 1 "human" "human"
    ⟨1, 7, WfStatus.pending_approval⟩ rfl rfl

/-- Each transition request either is refused with the state unchanged, or
is performed with the ledger longer by exactly one entry. -/
theorem applyReq_cases (st : AgentState) (req : TransitionReq)
    (actor : String) :
    ((applyReq st req actor).2 = false ∧ (applyReq st req actor).1 = st) ∨
    ((applyReq st req actor).2 = true ∧
      (applyReq st req actor).1.audit.entries.length =
        st.audit.entries.length + 1) := by
  rcases req with ⟨iid, nxt⟩ | ⟨wid, ev⟩ | ⟨wid, sid, nxt⟩
  · cases hf : st.issues.find? (fun i => i.issue_id == iid) with
    | none => exact Or.inl (by simp [applyReq, hf])
    | some i =>
      cases hok : issueTransitionOk i.status nxt with
      | false => exact Or.inl (by simp [applyReq, hf, hok])
      | true => exact Or.inr (by simp [applyReq, hf, hok, ledgerAppend])
  · cases hf : st.workflows.find? (fun w => w.wf_id == wid) with
    | none => exact Or.inl (by simp [applyReq, hf])
    | some w =>
      cases ht : wfTransition w.status ev with
      | none => exact Or.inl (by simp [applyReq, hf, ht])
      | some nxt2 => exact Or.inr (by simp [applyReq, hf, ht, ledgerAppend])
  · cases hf : st.workflows.find? (fun w => w.wf_id == wid) with
    | none => exact Or.inl (by simp [applyReq, hf])
    | some w =>
      cases hs : w.steps.find? (fun t => t.step_id == sid) with
      | none => exact Or.inl (by simp [applyReq, hf, hs])
      | some srec =>
        cases hok : stepTransitionOk srec.status nxt with
        | false => exact Or.inl (by simp [applyReq, hf, hs, hok])
        | true =>
          exact Or.inr (by simp [applyReq, hf, hs, hok, ledgerAppend])

/-- C1: a performed status transition on an Issue, a Workflow, or a Step
appends exactly one audit entry, whose `issue_id`/`workflow_id` match the
transitioned entity; a refused request appends nothing and changes
nothing; and over any request sequence the ledger grows by exactly the
number of performed transitions. -/
theorem audited_entity_transitions (st : AgentState) (req : TransitionReq)
    (actor : String) : FullAuditSpec st req actor := by
  refine ⟨?_, ?_, ?_⟩
  · intro h
    rcases req with ⟨iid, nxt⟩ | ⟨wid, ev⟩ | ⟨wid, sid, nxt⟩
    · cases hf : st.issues.find? (fun i => i.issue_id == iid) with
      | none => simp [applyReq, hf] at h
      | some i =>
        cases hok : issueTransitionOk i.status nxt with
        | false => simp [applyReq, hf, hok] at h
        | true =>
          refine ⟨issueAuditEntry st.audit.entries.length iid actor, ?_,
            rfl, rfl⟩
          simp [applyReq, hf, hok, ledgerAppend]
    · cases hf : st.workflows.find? (fun w => w.wf_id == wid) with
      | none => simp [applyReq, hf] at h
      | some w =>
        cases ht : wfTransition w.status ev with
        | none => simp [applyReq, hf, ht] at h
        | some nxt2 =>
          refine ⟨wfAuditEntry st.audit.entries.length wid w.issue_id ev
            actor, ?_, rfl, ?_⟩
          · simp [applyReq, hf, ht, ledgerAppend]
          · intro w2 hw2
            rw [hf] at hw2
            injection hw2 with hw3
            rw [← hw3]
            rfl
    · cases hf : st.workflows.find? (fun w => w.wf_id == wid) with
      | none => simp [applyReq, hf] at h
      | some w =>
        cases hs : w.steps.find? (fun t => t.step_id == sid) with
        | none => simp [applyReq, hf, hs] at h
        | some srec =>
          cases hok : stepTransitionOk srec.status nxt with
          | false => simp [applyReq, hf, hs, hok] at h
          | true =>
            refine ⟨stepAuditEntry st.audit.entries.length wid w.issue_id
              actor, ?_, rfl, ?_⟩
            · simp [applyReq, hf, hs, hok, ledgerAppend]
            · intro w2 hw2
              rw [hf] at hw2
              injection hw2 with hw3
              rw [← hw3]
              rfl
  · intro h
    rcases applyReq_cases st req actor with ⟨h2, h1⟩ | ⟨h2, hlen⟩
    · exact h1
    · rw [h2] at h
      cases h
  · intro reqs
    induction reqs generalizing st with
    | nil => simp [runReqs, appliedReqCount]
    | cons r rest ih =>
      obtain ⟨req2, actor2⟩ := r
      simp only [runReqs, appliedReqCount]
      rcases applyReq_cases st req2 actor2 with ⟨h2, h1⟩ | ⟨h2, hlen⟩
      · rw [h2, h1]
        rw [ih st]
        simp
      · rw [h2]
        rw [ih ((applyReq st req2 actor2).1), hlen]
        simp
        omega

/-- C1 witness: the theorem applied to a step start, an issue advance and a
workflow claim on the demonstration agent state. -/
theorem audited_entity_transitions_witness :
    FullAuditSpec demoAgent (TransitionReq.step 1 1 StepStatus.running)
      "agent" ∧
    FullAuditSpec demoAgent (TransitionReq.issue 7 IssueStatus.analyzing)
      "agent" ∧
    FullAuditSpec demoAgent (TransitionReq.workflow 1 WfEvent.claim)
      "agent" :=
  ⟨audited_entity_transitions demoAgent
      (TransitionReq.step 1 1 StepStatus.running) "agent",
   audited_entity_transitions demoAgent
      (TransitionReq.issue 7 IssueStatus.analyzing) "agent",
   audited_entity_transitions demoAgent
      (TransitionReq.workflow 1 WfEvent.claim) "agent"⟩

/-- The Executor step loop preserves the step ids in order. -/
theorem runSteps_map_id (o : Nat → Nat → Bool) (r : Nat) (ss : List Step) :
    (runSteps o r ss).1.map Step.id = ss.map Step.id := by
  induction ss with
  | nil => rfl
  | cons s rest ih =>
    cases h : stepSucceeds o r s.id with
    | true => simp [runSteps, h, ih]
    | false => simp [runSteps, h]

/-- Every started step id is an id of the step list. -/
theorem runSteps_started_mem (o : Nat → Nat → Bool) (r : Nat)
    (ss : List Step) :
    ∀ x ∈ (runSteps o r ss).2.1, x ∈ ss.map Step.id := by
  induction ss with
  | nil =>
    intro x hx
    simp [runSteps] at hx
  | cons s rest ih =>
    intro x hx
    cases h : stepSucceeds o r s.id with
    | true =>
      simp only [runSteps, h, if_true, List.mem_cons] at hx
      rcases hx with rfl | hx2
      · simp
      · simp only [List.map_cons, List.mem_cons]
        exact Or.inr (ih x hx2)
    | false =>
      simp only [runSteps, h, Bool.false_eq_true, if_false, List.mem_cons,
        List.not_mem_nil, or_false] at hx
      simp [hx]

/-- Started step ids are strictly increasing when the step list is. -/
theorem runSteps_started_pairwise (o : Nat → Nat → Bool) (r : Nat)
    (ss : List Step) (hp : ss.Pairwise fun a b => a.id < b.id) :
    (runSteps o r ss).2.1.Pairwise (· < ·) := by
  induction ss with
  | nil => simp [runSteps]
  | cons s rest ih =>
    rw [List.pairwise_cons] at hp
    cases h : stepSucceeds o r s.id with
    | true =>
      simp only [runSteps, h, if_true]
      rw [List.pairwise_cons]
      constructor
      · intro b hb
        obtain ⟨t, ht, rfl⟩ := List.mem_map.mp
          (runSteps_started_mem o r rest b hb)
        exact hp.1 t ht
      · exact ih hp.2
    | false =>
      simp [runSteps, h]

/-- After a step that exhausts its retries, every started id is at most the
failing step id. -/
theorem runSteps_started_le_of_fail (o : Nat → Nat → Bool) (r : Nat)
    (ss : List Step) (hp : ss.Pairwise fun a b => a.id < b.id) (s : Step)
    (hs : s ∈ ss) (hf : stepSucceeds o r s.id = false) :
    ∀ t ∈ (runSteps o r ss).2.1, t ≤ s.id := by
  induction ss with
  | nil => cases hs
  | cons a rest ih =>
    rw [List.pairwise_cons] at hp
    cases h : stepSucceeds o r a.id with
    | true =>
      have hsrest : s ∈ rest := by
        rcases List.mem_cons.mp hs with rfl | h2
        · rw [hf] at h
          cases h
        · exact h2
      intro t ht
      simp only [runSteps, h, if_true, List.mem_cons] at ht
      rcases ht with rfl | ht2
      · exact le_of_lt (hp.1 s hsrest)
      · exact ih hp.2 hsrest t ht2
    | false =>
      intro t ht
      simp only [runSteps, h, Bool.false_eq_true, if_false, List.mem_cons,
        List.not_mem_nil, or_false] at ht
      rcases List.mem_cons.mp hs with rfl | h2
      · rw [ht]
      · rw [ht]
        exact le_of_lt (hp.1 s h2)

/-- A step that exhausts its retries makes the loop report failure. -/
theorem runSteps_ok_false (o : Nat → Nat → Bool) (r : Nat) (ss : List Step)
    (s : Step) (hs : s ∈ ss) (hf : stepSucceeds o r s.id = false) :
    (runSteps o r ss).2.2 = false := by
  induction ss with
  | nil => cases hs
  | cons a rest ih =>
    cases h : stepSucceeds o r a.id with
    | true =>
      have hsrest : s ∈ rest := by
        rcases List.mem_cons.mp hs with rfl | h2
        · rw [hf] at h
          cases h
        · exact h2
      simp only [runSteps, h, if_true]
      exact ih hsrest
    | false =>
      simp [runSteps, h]

/-- Every step before a started step ends `completed`. -/
theorem runSteps_prior_completed (o : Nat → Nat → Bool) (r : Nat)
    (ss : List Step) (hp : ss.Pairwise fun a b => a.id < b.id) :
    ∀ tid ∈ (runSteps o r ss).2.1, ∀ u ∈ (runSteps o r ss).1,
      u.id < tid → u.status = StepStatus.completed := by
  induction ss with
  | nil =>
    intro tid htid
    simp [runSteps] at htid
  | cons a rest ih =>
    rw [List.pairwise_cons] at hp
    intro tid htid u hu hlt
    cases h : stepSucceeds o r a.id with
    | true =>
      simp only [runSteps, h, if_true, List.mem_cons] at htid hu
      rcases hu with rfl | hu2
      · rfl
      · have hurest : u.id ∈ rest.map Step.id := by
          rw [← runSteps_map_id o r rest]
          exact List.mem_map_of_mem Step.id hu2
        obtain ⟨t, ht, htu⟩ := List.mem_map.mp hurest
        rcases htid with rfl | htid2
        · exact absurd hlt (by rw [← htu]; exact not_lt_of_gt (hp.1 t ht))
        · exact ih hp.2 tid htid2 u hu2 hlt
    | false =>
      simp only [runSteps, h, Bool.false_eq_true, if_false, List.mem_cons,
        List.not_mem_nil, or_false] at htid hu
      rcases hu with rfl | hu2
      · rw [htid] at hlt
        exact absurd hlt (lt_irrefl _)
      · rw [htid] at hlt
        exact absurd hlt (not_lt_of_gt (hp.1 u hu2))

/-- C2: over any approved workflow with strictly increasing step ids, the
Executor starts steps in strictly increasing id order, a step starts only
once every prior step is `completed`, and a step that exhausts its retries
fails the workflow with no later step ever starting. -/
theorem executor_step_order (o : Nat → Nat → Bool) (r : Nat) (wf : Workflow)
    (happ : wf.status = WfStatus.approved)
    (hp : wf.steps.Pairwise fun a b => a.id < b.id) :
    ExecutorSpec o r wf := by
  unfold ExecutorSpec
  simp only [executeWorkflow, happ, if_true]
  refine ⟨?_, ?_, ?_⟩
  · exact runSteps_started_pairwise o r wf.steps hp
  · intro tid htid u hu hlt
    exact runSteps_prior_completed o r wf.steps hp tid htid u hu hlt
  · intro s hs hf
    have hok := runSteps_ok_false o r wf.steps s hs hf
    constructor
    · simp [hok]
    · intro t ht hlt hmem
      have hle := runSteps_started_le_of_fail o r wf.steps hp s hs hf t.id hmem
      omega

/-- C2 witness: the theorem applied to the three-step demonstration
workflow under the oracle failing step 2; step 3 never starts and the
workflow fails. -/
theorem executor_step_order_witness : ExecutorSpec demoOracle 3 demoWf :=
  executor_step_order demoOracle 3 demoWf rfl (by decide)

/-- Counting over a `filterMap`: when exactly one element of a
duplicate-free list produces a value satisfying the predicate, the count is
one. -/
theorem countP_filterMap_eq_one {α β : Type} (f : α → Option β)
    (q : β → Bool) (l : List α) (hl : l.Nodup) (a : α) (ha : a ∈ l) (b : β)
    (hfa : f a = some b) (hqb : q b = true)
    (huniq : ∀ x ∈ l, ∀ y, f x = some y → q y = true → x = a) :
    (l.filterMap f).countP q = 1 := by
  induction l with
  | nil => cases ha
  | cons x xs ih =>
    rw [List.nodup_cons] at hl
    rw [List.filterMap_cons]
    cases hfx : f x with
    | none =>
      have haxs : a ∈ xs := by
        rcases List.mem_cons.mp ha with rfl | h2
        · rw [hfx] at hfa
          cases hfa
        · exact h2
      exact ih hl.2 haxs
        (fun x2 hx2 => huniq x2 (List.mem_cons_of_mem _ hx2))
    | some y =>
      rw [List.countP_cons]
      by_cases hxa : x = a
      · subst hxa
        rw [hfx] at hfa
        injection hfa with hby
        subst hby
        rw [hqb]
        have hzero : (xs.filterMap f).countP q = 0 := by
          rw [List.countP_eq_zero]
          intro z hz hqz
          obtain ⟨w, hw, hfw⟩ := List.mem_filterMap.mp hz
          have hwx := huniq w (List.mem_cons_of_mem _ hw) z hfw hqz
          exact hl.1 (hwx ▸ hw)
        rw [hzero]
        simp
      · have hqy : q y = false := by
          rcases Bool.eq_false_or_eq_true (q y) with h | h
          · exact absurd (huniq x (List.mem_cons_self x xs) y hfx h) hxa
          · exact h
        rw [hqy]
        have haxs : a ∈ xs := by
          rcases List.mem_cons.mp ha with rfl | h2
          · exact absurd rfl hxa
          · exact h2
        rw [ih hl.2 haxs
          (fun x2 hx2 => huniq x2 (List.mem_cons_of_mem _ hx2))]
        simp

/-- Counting over a `filterMap`: when any two elements of a duplicate-free
list producing values satisfying the predicate coincide, the count is at
most one. -/
theorem countP_filterMap_le_one {α β : Type} (f : α → Option β)
    (q : β → Bool) (l : List α) (hl : l.Nodup)
    (huniq : ∀ x ∈ l, ∀ y ∈ l, ∀ bx b2, f x = some bx → f y = some b2 →
      q bx = true → q b2 = true → x = y) :
    (l.filterMap f).countP q ≤ 1 := by
  induction l with
  | nil => simp
  | cons x xs ih =>
    rw [List.nodup_cons] at hl
    rw [List.filterMap_cons]
    cases hfx : f x with
    | none =>
      exact ih hl.2 (fun x2 hx2 y2 hy2 =>
        huniq x2 (List.mem_cons_of_mem _ hx2) y2 (List.mem_cons_of_mem _ hy2))
    | some y =>
      rw [List.countP_cons]
      by_cases hqy : q y = true
      · rw [hqy]
        have hzero : (xs.filterMap f).countP q = 0 := by
          rw [List.countP_eq_zero]
          intro z hz hqz
          obtain ⟨w, hw, hfw⟩ := List.mem_filterMap.mp hz
          have hxw := huniq x (List.mem_cons_self x xs) w
            (List.mem_cons_of_mem _ hw) y z hfx hfw hqy hqz
          exact hl.1 (hxw ▸ hw)
        rw [hzero]
        simp
      · have hqy2 : q y = false := by
          rcases Bool.eq_false_or_eq_true (q y) with h | h
          · exact absurd h hqy
          · exact h
        rw [hqy2]
        have hle := ih hl.2 (fun x2 hx2 y2 hy2 =>
          huniq x2 (List.mem_cons_of_mem _ hx2) y2 (List.mem_cons_of_mem _ hy2))
        simpa using hle

/-- Membership in a key group. -/
theorem mem_groupOf (batch : List Signal) (k : SigKey) (s : Signal) :
    s ∈ groupOf batch k ↔ s ∈ batch ∧ sigKey s = k := by
  simp [groupOf, List.mem_filter]

/-- A group long enough to qualify is nonempty. -/
theorem groupOf_ne_nil (cfg : ObserverConfig) (batch : List Signal)
    (k : SigKey) (hthr : 1 ≤ cfg.pattern_threshold)
    (hk : cfg.pattern_threshold ≤ (groupOf batch k).length) :
    groupOf batch k ≠ [] := by
  intro h0
  rw [h0] at hk
  simp at hk
  omega

/-- When the batch ids are duplicate-free, an id occurring in two key
groups forces the keys to coincide. -/
theorem group_shared_id (batch : List Signal)
    (hn : (batch.map Signal.id).Nodup) (k1 k2 : SigKey) (i : Nat)
    (h1 : i ∈ (groupOf batch k1).map Signal.id)
    (h2 : i ∈ (groupOf batch k2).map Signal.id) : k1 = k2 := by
  obtain ⟨s, hs, hsi⟩ := List.mem_map.mp h1
  obtain ⟨t, ht, hti⟩ := List.mem_map.mp h2
  obtain ⟨hsb, hsk⟩ := (mem_groupOf batch k1 s).mp hs
  obtain ⟨htb, htk⟩ := (mem_groupOf batch k2 t).mp ht
  have hst : s = t := List.inj_on_of_nodup_map hn hsb htb (by rw [hsi, hti])
  rw [← hsk, ← htk, hst]

/-- Flipping `processed` does not change a signal key. -/
theorem sigKey_update (t : Signal) (c : Prop) [Decidable c] :
    sigKey (if c then { t with processed := true } else t) = sigKey t := by
  split <;> rfl

/-- C6: over any batch of unprocessed signals with duplicate-free ids and a
key whose group reaches the threshold, one Observer cycle emits exactly one
pattern carrying that whole group, marks the whole group processed, never
reports a signal id in two patterns, and leaves every signal of a
non-qualifying group unprocessed. -/
theorem observer_cycle (cfg : ObserverConfig) (batch : List Signal)
    (hthr : 1 ≤ cfg.pattern_threshold)
    (hn : (batch.map Signal.id).Nodup)
    (hu : ∀ s ∈ batch, s.processed = false)
    (k : SigKey) (hk : cfg.pattern_threshold ≤ (groupOf batch k).length) :
    ObserverSpec cfg batch k := by
  have hkmem : k ∈ (batch.map sigKey).dedup := by
    rw [List.mem_dedup]
    obtain ⟨s, hs⟩ := List.exists_mem_of_ne_nil _
      (groupOf_ne_nil cfg batch k hthr hk)
    obtain ⟨hsb, hsk⟩ := (mem_groupOf batch k s).mp hs
    rw [← hsk]
    exact List.mem_map_of_mem sigKey hsb
  refine ⟨?_, ?_, ?_, ?_⟩
  · show (((batch.map sigKey).dedup.filterMap fun k2 =>
        if cfg.pattern_threshold ≤ (groupOf batch k2).length
        then some (Pattern.mk ((groupOf batch k2).map Signal.id))
        else none).countP
          fun p => Decidable.decide
            (p.signal_ids = (groupOf batch k).map Signal.id)) = 1
    apply countP_filterMap_eq_one _ _ _ (List.nodup_dedup _) k hkmem
      (Pattern.mk ((groupOf batch k).map Signal.id)) (if_pos hk) (by simp)
    intro x hx y hfy hqy
    have hcond : cfg.pattern_threshold ≤ (groupOf batch x).length ∧
        y = Pattern.mk ((groupOf batch x).map Signal.id) := by
      by_cases hc : cfg.pattern_threshold ≤ (groupOf batch x).length
      · rw [if_pos hc] at hfy
        exact ⟨hc, (Option.some_injective _ hfy).symm⟩
      · rw [if_neg hc] at hfy
        cases hfy
    obtain ⟨hc, rfl⟩ := hcond
    have hqe : (groupOf batch x).map Signal.id =
        (groupOf batch k).map Signal.id := by
      simpa using hqy
    obtain ⟨s, hs⟩ := List.exists_mem_of_ne_nil _
      (groupOf_ne_nil cfg batch x hthr hc)
    apply group_shared_id batch hn x k s.id
      (List.mem_map_of_mem Signal.id hs)
    rw [← hqe]
    exact List.mem_map_of_mem Signal.id hs
  · intro s hs hsk
    have hs2 : s ∈ batch.map (fun t =>
        if cfg.pattern_threshold ≤ (groupOf batch (sigKey t)).length
        then { t with processed := true } else t) := hs
    obtain ⟨t, ht, rfl⟩ := List.mem_map.mp hs2
    rw [sigKey_update] at hsk
    rw [hsk, if_pos hk]
  · intro i
    show (((batch.map sigKey).dedup.filterMap fun k2 =>
        if cfg.pattern_threshold ≤ (groupOf batch k2).length
        then some (Pattern.mk ((groupOf batch k2).map Signal.id))
        else none).countP
          fun p => Decidable.decide (i ∈ p.signal_ids)) ≤ 1
    apply countP_filterMap_le_one _ _ _ (List.nodup_dedup _)
    intro x hx y hy bx b2 hfx hfy hqx hqy
    have hcx : cfg.pattern_threshold ≤ (groupOf batch x).length ∧
        bx = Pattern.mk ((groupOf batch x).map Signal.id) := by
      by_cases hc : cfg.pattern_threshold ≤ (groupOf batch x).length
      · rw [if_pos hc] at hfx
        exact ⟨hc, (Option.some_injective _ hfx).symm⟩
      · rw [if_neg hc] at hfx
        cases hfx
    have hcy : cfg.pattern_threshold ≤ (groupOf batch y).length ∧
        b2 = Pattern.mk ((groupOf batch y).map Signal.id) := by
      by_cases hc : cfg.pattern_threshold ≤ (groupOf batch y).length
      · rw [if_pos hc] at hfy
        exact ⟨hc, (Option.some_injective _ hfy).symm⟩
      · rw [if_neg hc] at hfy
        cases hfy
    obtain ⟨hc1, rfl⟩ := hcx
    obtain ⟨hc2, rfl⟩ := hcy
    exact group_shared_id batch hn x y i (by simpa using hqx)
      (by simpa using hqy)
  · intro s hs hlen
    have hs2 : s ∈ batch.map (fun t =>
        if cfg.pattern_threshold ≤ (groupOf batch (sigKey t)).length
        then { t with processed := true } else t) := hs
    obtain ⟨t, ht, rfl⟩ := List.mem_map.mp hs2
    rw [sigKey_update] at hlen
    rw [if_neg (by omega)]
    exact hu t ht

/-- C6 witness: the theorem applied to the demonstration batch, whose two
checkout signals share the demonstration key and reach the threshold. -/
theorem observer_cycle_witness : ObserverSpec obsCfg demoBatch demoKey :=
  observer_cycle obsCfg demoBatch (by decide) (by decide) (by decide)
    demoKey (by decide)

end SelfHeal
